import Mathlib

/-!
Shallow embedding of the CardCue core (src/app.js): the card data model,
hydration, the deck store with persistence, the spaced-repetition grading
rule, the filter engine, the import merger and the session engine.

Conventions of the embedding:
* JS objects become Lean structures; fields that the code tests for
  absence (`!c.stats`, `typeof c.correct === 'undefined'`) are `Option`s
  on the raw card type, while `id`/`type` use `""` for the JS-falsy case.
* Timestamps are `Nat` (epoch milliseconds); ISO timestamps are opaque
  strings threaded in as parameters (the clock is an input).
* `Math.random`-based identifiers and shuffles are threaded in as
  explicit parameters (an id supply, a shuffle function).
* `localStorage.setItem` can throw (quota); a write is modelled by a
  `writeOk` flag, and every operation that persists returns the final
  in-memory state together with the exception that escaped, if any.
* JS string builtins used by the code (`toLowerCase`, `toUpperCase`,
  `trim`, `indexOf`-based substring search) are modelled executably over
  the character list of a `String`.
-/

namespace CardCue

/-- Models `String.prototype.toLowerCase`. -/
def jsToLower (s : String) : String := ⟨s.data.map Char.toLower⟩

/-- Models `String.prototype.toUpperCase`. -/
def jsToUpper (s : String) : String := ⟨s.data.map Char.toUpper⟩

/-- Models `String.prototype.trim`. -/
def jsTrim (s : String) : String :=
  ⟨((s.data.dropWhile (·.isWhitespace)).reverse.dropWhile (·.isWhitespace)).reverse⟩

/-- Character-list version of "needle starts the list". -/
def charsStartWith : List Char → List Char → Bool
  | [], _ => true
  | _ :: _, [] => false
  | a :: as, b :: bs => a == b && charsStartWith as bs

/-- Character-list version of "needle occurs somewhere in the list". -/
def charsOccurIn (needle : List Char) : List Char → Bool
  | [] => charsStartWith needle []
  | b :: bs => charsStartWith needle (b :: bs) || charsOccurIn needle bs

/-- Models `hay.indexOf(needle) >= 0` on JS strings. -/
def containsSubstr (hay needle : String) : Bool :=
  charsOccurIn needle.data hay.data

/-- Models JS `a || b` on non-negative numbers (`0` is falsy). -/
def jsOrNat (a b : Nat) : Nat := if a == 0 then b else a

/-- Per-card statistics, from `initStats` in src/app.js. -/
structure Stats where
  seen : Nat
  correct : Nat
  streak : Nat
  lastSeen : Option String
  deriving DecidableEq

/-- Spaced-repetition fields, from `initSR` in src/app.js. -/
structure SR where
  intervalDays : Nat
  nextDue : Nat
  lastReviewed : Nat
  deriving DecidableEq

/-- `initStats()`: `{ seen: 0, correct: 0, streak: 0, lastSeen: null }`. -/
def initStats : Stats := { seen := 0, correct := 0, streak := 0, lastSeen := none }

/-- `initSR()`: `{ intervalDays: 0, nextDue: 0, lastReviewed: 0 }`. -/
def initSR : SR := { intervalDays := 0, nextDue := 0, lastReviewed := 0 }

/-- `SR_STEPS = [1, 3, 7, 14]` (days). -/
def SR_STEPS : List Nat := [1, 3, 7, 14]

/-- A possibly-partial card object as `hydrateCard` receives it.
`id`/`type` use `""` for the JS-falsy absent case; the substructures the
code tests with `!c.stats` / `!c.sr` / `!c.topics` and the fields it
tests with `typeof` are `Option`s. -/
structure RawCard where
  id : String := ""
  type : String := ""
  front : String := ""
  back : String := ""
  question : String := ""
  choices : List String := []
  answer : Option String := none
  correct : Option Nat := none
  explanation : String := ""
  topics : Option (List String) := none
  stats : Option Stats := none
  sr : Option SR := none
  deriving DecidableEq

/-- A fully hydrated card: every field the rest of the code reads
unconditionally (`id`, `type`, `stats`, `sr`, `topics`) is present. -/
structure Card where
  id : String
  type : String
  front : String := ""
  back : String := ""
  question : String := ""
  choices : List String := []
  answer : Option String := none
  correct : Option Nat := none
  explanation : String := ""
  topics : List String := []
  stats : Stats := initStats
  sr : SR := initSR
  deriving DecidableEq

/-- The legacy letter-to-index map `{A:0,B:1,C:2,D:3}[s.trim().toUpperCase()] ?? 0`. -/
def letterIndex (s : String) : Nat :=
  let u := jsToUpper (jsTrim s)
  if u == "A" then 0 else if u == "B" then 1 else if u == "C" then 2
  else if u == "D" then 3 else 0

/-- `hydrateCard(c)` from src/app.js lines 189-200. `fresh` is the value
`uid()` would produce if an id has to be assigned. -/
def hydrateCard (fresh : String) (c : RawCard) : RawCard :=
  { c with
    id := if c.id == "" then fresh else c.id,
    type := if c.type == "" then "flashcard" else c.type,
    stats := if c.stats.isNone then some initStats else c.stats,
    sr := if c.sr.isNone then some initSR else c.sr,
    topics := if c.topics.isNone then some [] else c.topics,
    correct := if c.correct.isNone && c.answer.isSome
               then some (letterIndex (c.answer.getD "")) else c.correct }

/-- The hydrated card repackaged with its guaranteed-present fields made
total. After `hydrateCard` the three `getD` defaults can never fire
(see `hydrateCard_total`). -/
def hydrateFull (fresh : String) (r : RawCard) : Card :=
  let h := hydrateCard fresh r
  { id := h.id, type := h.type, front := h.front, back := h.back,
    question := h.question, choices := h.choices, answer := h.answer,
    correct := h.correct, explanation := h.explanation,
    topics := h.topics.getD [], stats := h.stats.getD initStats,
    sr := h.sr.getD initSR }

/-- The deck snapshot, from `newDeck()` in src/app.js. -/
structure Deck where
  version : Nat := 1
  createdAt : String := ""
  updatedAt : String := ""
  cards : List Card := []
  topicIndex : List (String × List String) := []
  deriving DecidableEq

/-- Append a card id to one topic bucket of the index, creating the
bucket at the end if absent (JS object insertion order). -/
def addToIndex (idx : List (String × List String)) (t cid : String) :
    List (String × List String) :=
  if idx.any (fun p => p.1 == t) then
    idx.map (fun p => if p.1 == t then (p.1, p.2 ++ [cid]) else p)
  else idx ++ [(t, [cid])]

/-- `buildTopicIndex(d)` from src/app.js lines 224-228. -/
def buildTopicIndex (cards : List Card) : List (String × List String) :=
  cards.foldl (fun idx c => c.topics.foldl (fun idx t => addToIndex idx t c.id) idx) []

/-- The exception that `localStorage.setItem` throws when the storage
quota is exhausted. -/
inductive StorageErr
  | quotaExceeded
  deriving DecidableEq

/-- `persist()` from src/app.js lines 246-251: stamps `updatedAt`, then
performs the durable write. The write (`localStorage.setItem`, line 248)
is not guarded by any try/catch, so when it fails the exception escapes
`persist`; the `updatedAt` stamp applied before the write remains on the
in-memory deck. The trailing UI refreshes are out of scope. -/
def persist (writeOk : Bool) (iso : String) (d : Deck) : Deck × Option StorageErr :=
  let d2 := { d with updatedAt := iso }
  (d2, if writeOk then none else some StorageErr.quotaExceeded)

/-- Lines 1059-1061 / 422-424: update the per-card statistics for one
graded attempt. -/
def recordStats (isCorrect : Bool) (iso : String) (st : Stats) : Stats :=
  { seen := st.seen + 1,
    correct := if isCorrect then st.correct + 1 else st.correct,
    streak := if isCorrect then st.streak + 1 else 0,
    lastSeen := some iso }

/-- Lines 1062-1066 / 426-430: recompute the spaced-repetition fields
from the post-update streak. -/
def recordSR (streak : Nat) (now : Nat) : SR :=
  let stepIdx := min streak (SR_STEPS.length - 1)
  let days := SR_STEPS.getD stepIdx 0
  { intervalDays := days, lastReviewed := now,
    nextDue := now + days * 24 * 3600 * 1000 }

/-- `record(c, isCorrect)` from src/app.js lines 1058-1068, restricted to
the card mutation (its trailing `persist()` call is modelled at deck
level, see `markResult`). `markResult` (lines 419-433) applies the same
per-card update. -/
def record (isCorrect : Bool) (now : Nat) (iso : String) (c : Card) : Card :=
  let st2 := recordStats isCorrect iso c.stats
  { c with stats := st2, sr := recordSR st2.streak now }

/-- Replace the first card with the given id (the JS code mutates the
object found by `find`, leaving any later duplicate untouched). -/
def updateFirst (f : Card → Card) (cardId : String) : List Card → List Card
  | [] => []
  | c :: rest =>
      if c.id == cardId then f c :: rest else c :: updateFirst f cardId rest

/-- `markResult(cardId, wasCorrect)` from src/app.js lines 419-433: find
the card; silently return if absent; otherwise apply the grading update
and persist. The pair is (in-memory deck after the call, exception that
escaped, if any). -/
def markResult (writeOk : Bool) (now : Nat) (iso : String) (cardId : String)
    (wasCorrect : Bool) (d : Deck) : Deck × Option StorageErr :=
  match d.cards.find? (fun c => c.id == cardId) with
  | none => (d, none)
  | some _ =>
      persist writeOk iso
        { d with cards := updateFirst (record wasCorrect now iso) cardId d.cards }

/-- Options accepted by `App.filterDeck` (src/app.js lines 558-600);
absent string options are `""`, an absent `limit` is `0` (both JS-falsy). -/
structure FilterOpts where
  search : String := ""
  topic : String := ""
  type : String := ""
  wrongOnly : Bool := false
  dueOnly : Bool := false
  shuffle : Bool := false
  limit : Nat := 0
  ids : Option (List String) := none

/-- The concatenated haystack the search filter matches against
(src/app.js lines 574-577). -/
def searchHay (c : Card) : String :=
  String.intercalate " "
    [c.id, c.type, c.front, c.back, c.question,
     String.intercalate " " c.choices, String.intercalate "," c.topics,
     c.explanation]

/-- `App.filterDeck(opts)` from src/app.js lines 558-600. `vm` is the
stored view mode (`App.viewMode.get()`), `shuffleFn` stands for the
random permutation `App.shuffleInPlace` applies, `now` is `Date.now()`. -/
def filterDeck (vm : String) (shuffleFn : List Card → List Card) (now : Nat)
    (opts : FilterOpts) (d : Deck) : List Card :=
  let search := jsToLower opts.search
  let arr := d.cards
  let arr := match opts.ids with
    | some ids => arr.filter (fun c => ids.contains c.id)
    | none => arr
  let arr := if opts.type ≠ "" then arr.filter (fun c => c.type == opts.type) else arr
  let arr := if opts.topic ≠ "" then arr.filter (fun c => c.topics.contains opts.topic) else arr
  let arr := if search ≠ "" then
      arr.filter (fun c => containsSubstr (jsToLower (searchHay c)) search)
    else arr
  let arr := if opts.wrongOnly then
      arr.filter (fun c => decide (c.stats.correct < c.stats.seen))
    else arr
  let arr := if opts.dueOnly then
      arr.filter (fun c => decide (jsOrNat c.sr.nextDue 0 ≤ now))
    else arr
  let arr := if opts.shuffle then shuffleFn arr else arr
  let arr := if opts.limit ≠ 0 ∧ opts.limit < arr.length then arr.take opts.limit else arr
  let arr := if vm == "grid" then (if 9 < arr.length then arr.take 9 else arr) else arr
  arr

/-- The filter pipeline exactly as the specification describes it:
ids → type → topic → search → wrongOnly → dueOnly → shuffle → limit,
"and no further transformation is applied". Written from the spec's
words, to be compared with `filterDeck` (the source embedding). -/
def filterDeckSpec (shuffleFn : List Card → List Card) (now : Nat)
    (opts : FilterOpts) (d : Deck) : List Card :=
  let search := jsToLower opts.search
  let arr := d.cards
  let arr := match opts.ids with
    | some ids => arr.filter (fun c => ids.contains c.id)
    | none => arr
  let arr := if opts.type ≠ "" then arr.filter (fun c => c.type == opts.type) else arr
  let arr := if opts.topic ≠ "" then arr.filter (fun c => c.topics.contains opts.topic) else arr
  let arr := if search ≠ "" then
      arr.filter (fun c => containsSubstr (jsToLower (searchHay c)) search)
    else arr
  let arr := if opts.wrongOnly then
      arr.filter (fun c => decide (c.stats.correct < c.stats.seen))
    else arr
  let arr := if opts.dueOnly then
      arr.filter (fun c => decide (c.sr.nextDue ≤ now))
    else arr
  let arr := if opts.shuffle then shuffleFn arr else arr
  let arr := if opts.limit ≠ 0 then arr.take opts.limit else arr
  arr

/-- The extra step `filterDeck` performs after the documented pipeline:
in grid view mode the result is truncated to its first 9 elements
(src/app.js lines 591-597). -/
def gridTruncate (vm : String) (arr : List Card) : List Card :=
  if vm == "grid" then (if 9 < arr.length then arr.take 9 else arr) else arr

/-- `map[c.id] = c` over a JS object viewed as an insertion-ordered
association list: replace in place if the id is present, else append. -/
def mapPut (m : List Card) (nc : Card) : List Card :=
  if m.any (fun c => c.id == nc.id) then
    m.map (fun c => if c.id == nc.id then nc else c)
  else m ++ [nc]

/-- Lookup by card id (`map[id]`). -/
def findId (m : List Card) (i : String) : Option Card :=
  m.find? (fun c => c.id == i)

/-- The per-card merge of `upsertCards` (src/app.js lines 344-352): when
the id already exists, keep the existing `stats`/`sr` on the incoming
card; otherwise keep the incoming card as hydrated. -/
def upsertMerge (old : Option Card) (nc : Card) : Card :=
  match old with
  | some oc => { nc with stats := oc.stats, sr := oc.sr }
  | none => nc

/-- One `newCards.forEach` iteration of `upsertCards`. -/
def upsertStep (m : List Card) (nc : Card) : List Card :=
  mapPut m (upsertMerge (findId m nc.id) nc)

/-- The incoming batch after the `hydrateCard` call at line 343; `uid`
supplies the random id the i-th card would receive if it lacks one. -/
def hydrateBatch (uid : Nat → String) (newCards : List RawCard) : List Card :=
  newCards.enum.map (fun p => hydrateFull (uid p.1) p.2)

/-- `upsertCards(newCards)` from src/app.js lines 339-358: build the
id-keyed map from the current deck, fold the hydrated batch through the
merge, rebuild the topic index and persist. The added/updated counters
feed only the completion alert and are omitted. -/
def upsertCards (uid : Nat → String) (writeOk : Bool) (iso : String)
    (newCards : List RawCard) (d : Deck) : Deck × Option StorageErr :=
  let m0 := d.cards.foldl mapPut []
  let m := (hydrateBatch uid newCards).foldl upsertStep m0
  persist writeOk iso { d with cards := m, topicIndex := buildTopicIndex m }

/-- The transient session state (src/app.js line 893). -/
structure Session where
  pool : List Card := []
  idx : Nat := 0
  correct : Nat := 0
  wrongs : List Card := []
  deriving DecidableEq

/-- `nextCard()` from src/app.js lines 1084-1087 (the `advance()` of the
spec): step forward, or land on the one-past-the-end sentinel. -/
def nextCard (s : Session) : Session :=
  if s.idx < s.pool.length - 1 then { s with idx := s.idx + 1 }
  else { s with idx := s.pool.length }

/-- The study-page state the session starters touch: the session object
and the persisted session counter. -/
structure StudyState where
  session : Session := {}
  sessionCount : Nat := 0
  deriving DecidableEq

/-- The `EmptyPool` condition (the `alert` at line 1148). -/
inductive StartErr
  | emptyPool
  deriving DecidableEq

/-- `startSessionFromPool(pool)` from src/app.js lines 1157-1164: reset
the session and bump the persisted session counter. -/
def startSessionFromPool (pool : List Card) (st : StudyState) : StudyState :=
  { session := { pool := pool, idx := 0, correct := 0, wrongs := [] },
    sessionCount := st.sessionCount + 1 }

/-- `startSession()` from src/app.js lines 1146-1150, taking the already
built working set: an empty pool is reported and nothing changes. -/
def startSession (pool : List Card) (st : StudyState) : StudyState × Option StartErr :=
  if pool.length == 0 then (st, some StartErr.emptyPool)
  else (startSessionFromPool pool st, none)

/-! ## Shared example values -/

/-- A simple hydrated flashcard used as concrete input by witnesses. -/
def exCard : Card := { id := "c1", type := "flashcard", front := "Front", back := "Back" }

/-- A one-card deck used as concrete input by witnesses. -/
def exDeck : Deck := { cards := [exCard] }

/-! ## Helper lemmas -/

theorem srSteps_getD (s : Nat) :
    (s = 0 → SR_STEPS.getD (min s 3) 0 = 1) ∧
    (s = 1 → SR_STEPS.getD (min s 3) 0 = 3) ∧
    (s = 2 → SR_STEPS.getD (min s 3) 0 = 7) ∧
    (3 ≤ s → SR_STEPS.getD (min s 3) 0 = 14) ∧
    SR_STEPS.getD (min s 3) 0 ≤ 14 := by
  refine ⟨fun h => ?_, fun h => ?_, fun h => ?_, fun h => ?_, ?_⟩
  · have hm : min s 3 = 0 := by omega
    rw [hm]; rfl
  · have hm : min s 3 = 1 := by omega
    rw [hm]; rfl
  · have hm : min s 3 = 2 := by omega
    rw [hm]; rfl
  · have hm : min s 3 = 3 := by omega
    rw [hm]; rfl
  · have hm : min s 3 = 0 ∨ min s 3 = 1 ∨ min s 3 = 2 ∨ min s 3 = 3 := by omega
    rcases hm with hm | hm | hm | hm <;> simp [hm, SR_STEPS]

theorem record_stats_inv (b : Bool) (now : Nat) (iso : String) (c : Card)
    (h : c.stats.correct ≤ c.stats.seen) :
    (record b now iso c).stats.correct ≤ (record b now iso c).stats.seen := by
  dsimp [record, recordStats]
  split_ifs <;> omega

theorem updateFirst_forall {P : Card → Prop} (f : Card → Card) (cid : String)
    (l : List Card) (hall : ∀ x ∈ l, P x) (hf : ∀ x, P x → P (f x)) :
    ∀ x ∈ updateFirst f cid l, P x := by
  induction l with
  | nil => intro x hx; cases hx
  | cons c rest ih =>
      intro x hx
      dsimp [updateFirst] at hx
      split at hx
      · rcases List.mem_cons.mp hx with h1 | h1
        · exact h1 ▸ hf c (hall c (List.mem_cons_self c rest))
        · exact hall x (List.mem_cons_of_mem c h1)
      · rcases List.mem_cons.mp hx with h1 | h1
        · exact h1 ▸ hall c (List.mem_cons_self c rest)
        · exact ih (fun y hy => hall y (List.mem_cons_of_mem c hy)) x h1

/-- Grading calls applied in sequence: each list entry supplies the
outcome and the clock values of one `record` call. -/
def applyGradings (l : List (Bool × Nat × String)) (c : Card) : Card :=
  l.foldl (fun acc p => record p.1 p.2.1 p.2.2 acc) c

/-! ## Claims about grading and the scheduler -/

/-- Claim C2: for every card whose stats initially satisfy
`correct ≤ seen`, after any finite sequence of grading calls (`record`,
and `markResult` at deck level) with arbitrary outcomes, the stats still
satisfy `correct ≤ seen`. -/
theorem C2_correct_le_seen_invariant (c : Card)
    (h : c.stats.correct ≤ c.stats.seen) :
    (∀ l : List (Bool × Nat × String),
        (applyGradings l c).stats.correct ≤ (applyGradings l c).stats.seen) ∧
    (∀ (writeOk : Bool) (now : Nat) (iso cid : String) (b : Bool) (d : Deck),
        (∀ x ∈ d.cards, x.stats.correct ≤ x.stats.seen) →
        ∀ x ∈ (markResult writeOk now iso cid b d).1.cards,
          x.stats.correct ≤ x.stats.seen) := by
  constructor
  · intro l
    induction l generalizing c with
    | nil => exact h
    | cons p rest ih =>
        exact ih (record p.1 p.2.1 p.2.2 c) (record_stats_inv p.1 p.2.1 p.2.2 c h)
  · intro writeOk now iso cid b d hall x hx
    dsimp [markResult] at hx
    rcases hfind : d.cards.find? (fun c => c.id == cid) with _ | c0
    · rw [hfind] at hx
      exact hall x hx
    · rw [hfind] at hx
      dsimp [persist] at hx
      exact updateFirst_forall (record b now iso) cid d.cards hall
        (fun y hy => record_stats_inv b now iso y hy) x hx

/-- Claim C2 witness: the invariant theorem applied at a concrete card
and a concrete grading sequence. -/
theorem C2_witness :
    exCard.stats.correct ≤ exCard.stats.seen ∧
    ((applyGradings [(true, 5, "t1"), (false, 9, "t2")] exCard).stats.correct ≤
      (applyGradings [(true, 5, "t1"), (false, 9, "t2")] exCard).stats.seen) ∧
    (∀ x ∈ (markResult true 5 "t1" "c1" true exDeck).1.cards,
        x.stats.correct ≤ x.stats.seen) :=
  ⟨by decide,
   (C2_correct_le_seen_invariant exCard (by decide)).1 [(true, 5, "t1"), (false, 9, "t2")],
   (C2_correct_le_seen_invariant exCard (by decide)).2 true 5 "t1" "c1" true exDeck
     (by intro x hx; fin_cases hx; decide)⟩

/-- Claim C3: after a graded attempt the resulting `sr.intervalDays` is
determined by the post-update streak via the fixed table `[1,3,7,14]`
(streak 0,1,2 give 1,3,7 and every streak ≥ 3 gives 14), so `sr.nextDue`
is never more than 14 days (14 × 86,400,000 ms) after `sr.lastReviewed`. -/
theorem C3_scheduler_fixed_table (b : Bool) (now : Nat) (iso : String) (c : Card) :
    ((record b now iso c).stats.streak = 0 → (record b now iso c).sr.intervalDays = 1) ∧
    ((record b now iso c).stats.streak = 1 → (record b now iso c).sr.intervalDays = 3) ∧
    ((record b now iso c).stats.streak = 2 → (record b now iso c).sr.intervalDays = 7) ∧
    (3 ≤ (record b now iso c).stats.streak → (record b now iso c).sr.intervalDays = 14) ∧
    (record b now iso c).sr.nextDue ≤ (record b now iso c).sr.lastReviewed + 14 * 86400000 := by
  dsimp only [record, recordStats, recordSR]
  rw [show SR_STEPS.length - 1 = 3 from rfl]
  have hg := srSteps_getD (if b = true then c.stats.streak + 1 else 0)
  refine ⟨hg.1, hg.2.1, hg.2.2.1, hg.2.2.2.1, ?_⟩
  have hb := hg.2.2.2.2
  omega

/-- Claim C3 witness: the scheduler theorem applied to a concrete card
whose post-update streak is 0 (incorrect answer). -/
theorem C3_witness :
    (record false 5 "t" exCard).stats.streak = 0 ∧
    (record false 5 "t" exCard).sr.intervalDays = 1 ∧
    (record false 5 "t" exCard).sr.nextDue ≤
      (record false 5 "t" exCard).sr.lastReviewed + 14 * 86400000 :=
  ⟨by decide,
   (C3_scheduler_fixed_table false 5 "t" exCard).1 (by decide),
   (C3_scheduler_fixed_table false 5 "t" exCard).2.2.2.2⟩

/-- Claim C4: grading an incorrect attempt sets `stats.streak = 0` and
`sr.intervalDays = 1`, increments `stats.seen` by 1, and leaves
`stats.correct` unchanged, for every card and every prior streak. -/
theorem C4_incorrect_resets (now : Nat) (iso : String) (c : Card) :
    (record false now iso c).stats.streak = 0 ∧
    (record false now iso c).sr.intervalDays = 1 ∧
    (record false now iso c).stats.seen = c.stats.seen + 1 ∧
    (record false now iso c).stats.correct = c.stats.correct :=
  ⟨rfl, rfl, rfl, rfl⟩

/-! ## Claim about hydration idempotence -/

/-- Claim C7: hydration is idempotent — hydrating an already-hydrated
card leaves every field unchanged, for every input shape. The first
hydration's generated id is nonempty (`uid()` yields a nonempty base-36
string), so the second pass changes nothing. -/
theorem C7_hydrate_idempotent (c : RawCard) (f1 f2 : String) (h : f1 ≠ "") :
    hydrateCard f2 (hydrateCard f1 c) = hydrateCard f1 c := by
  have hf1 : (f1 == "") = false := beq_eq_false_iff_ne.mpr h
  obtain ⟨id, ty, fr, bk, q, ch, ans, cor, ex, tp, st, sr⟩ := c
  simp only [hydrateCard, RawCard.mk.injEq, and_true, true_and]
  refine ⟨?_, ?_, ?_, ?_, ?_, ?_⟩
  · rcases hid : (id == "") with _ | _ <;> simp [hid, hf1]
  · rcases hty : (ty == "") with _ | _ <;> simp [hty]
  · cases cor <;> cases ans <;> simp
  · cases tp <;> simp
  · cases st <;> simp
  · cases sr <;> simp

/-- Claim C7 witness: idempotence applied to a concrete partial raw card
(no id, no type, legacy answer letter). -/
theorem C7_witness :
    ("x8f0q2ab" : String) ≠ "" ∧
    hydrateCard "zzzzzzzz" (hydrateCard "x8f0q2ab" { answer := some "b" }) =
      hydrateCard "x8f0q2ab" { answer := some "b" } :=
  ⟨by decide, C7_hydrate_idempotent { answer := some "b" } "x8f0q2ab" "zzzzzzzz" (by decide)⟩

/-! ## Claims about the session engine -/

theorem nextCard_iterate (s : Session) (k : Nat) (h0 : s.idx = 0)
    (hk : k ≤ s.pool.length) :
    (nextCard^[k] s).idx = k ∧ (nextCard^[k] s).pool = s.pool := by
  induction k with
  | zero => exact ⟨h0, rfl⟩
  | succ k ih =>
      have ihk := ih (by omega)
      rw [Function.iterate_succ_apply']
      dsimp only [nextCard]
      rw [ihk.1, ihk.2]
      split
      · exact ⟨rfl, rfl⟩
      · next hge =>
          refine ⟨?_, rfl⟩
          show s.pool.length = k + 1
          omega

/-- Claim C8: from an active session with pool length `n ≥ 1` and
`idx = 0`, calling `advance()` (`nextCard`) exactly `n` times lands on
`idx = n`, the one-past-the-end completion sentinel; and whenever
`idx < n - 1` a single `advance()` increments `idx` by exactly 1. -/
theorem C8_completion_sentinel :
    (∀ (s : Session) (n : Nat), s.pool.length = n → 1 ≤ n → s.idx = 0 →
        (nextCard^[n] s).idx = n) ∧
    (∀ s : Session, s.idx < s.pool.length - 1 → (nextCard s).idx = s.idx + 1) := by
  constructor
  · intro s n hn _ h0
    subst hn
    exact (nextCard_iterate s s.pool.length h0 (le_refl _)).1
  · intro s hlt
    dsimp [nextCard]
    rw [if_pos hlt]

/-- Claim C8 witness: a concrete 3-card session lands on `idx = 3` after
three advances, and a single advance from `idx = 0` lands on `idx = 1`. -/
theorem C8_witness :
    (nextCard^[3] { pool := [exCard, exCard, exCard] } : Session).idx = 3 ∧
    (nextCard { pool := [exCard, exCard, exCard] } : Session).idx = 0 + 1 :=
  ⟨C8_completion_sentinel.1 { pool := [exCard, exCard, exCard] } 3 rfl (by decide) rfl,
   C8_completion_sentinel.2 { pool := [exCard, exCard, exCard] } (by decide)⟩

/-- Claim C9: starting a session with an empty pool fails with the
`EmptyPool` condition and changes nothing (session fields and the
session counter keep their prior values); starting with a non-empty pool
sets the session to `{pool, idx: 0, correct: 0, wrongs: []}`. -/
theorem C9_empty_pool (st : StudyState) (pool : List Card) :
    (pool = [] → startSession pool st = (st, some StartErr.emptyPool)) ∧
    (pool ≠ [] →
        startSession pool st =
          ({ session := { pool := pool, idx := 0, correct := 0, wrongs := [] },
             sessionCount := st.sessionCount + 1 }, none)) := by
  constructor
  · intro h
    subst h
    rfl
  · intro h
    have hlen : (pool.length == 0) = false := by
      simp [List.length_eq_zero, h]
    simp [startSession, startSessionFromPool, hlen]

/-- Claim C9 witness: the start theorem applied to an empty pool and to
a concrete one-card pool, at a concrete prior state. -/
theorem C9_witness :
    startSession [] { sessionCount := 7 } = ({ sessionCount := 7 }, some StartErr.emptyPool) ∧
    startSession [exCard] { sessionCount := 7 } =
      ({ session := { pool := [exCard], idx := 0, correct := 0, wrongs := [] },
         sessionCount := 8 }, none) :=
  ⟨(C9_empty_pool { sessionCount := 7 } []).1 rfl,
   (C9_empty_pool { sessionCount := 7 } [exCard]).2 (by decide)⟩

/-! ## Claim about persistence failure -/

/-- Claim C1 counterexample: the durable write in `persist`
(`localStorage.setItem`, src/app.js line 248) is not guarded by any
try/catch, so a quota failure escapes `persist` and the grading call
that triggered it: at a concrete one-card deck, a failing write makes
both `persist` and `markResult` end with an escaped exception instead of
completing normally. -/
theorem C1_counterexample :
    (persist false "t" exDeck).2 = some StorageErr.quotaExceeded ∧
    (markResult false 5 "t" "c1" true exDeck).2 = some StorageErr.quotaExceeded := by
  decide

/-- Claim C1 (amended): when the durable write fails, the exception
propagates out of `persist` and out of the grading call (`markResult`
does not complete normally); however every in-memory mutation made
before the write (the stats/sr update and the `updatedAt` stamp) remains
in place, so the in-memory deck is exactly what it would have been had
the write succeeded, and it stays authoritative for the run. -/
theorem C1_write_failure_propagates (now : Nat) (iso cid : String) (b : Bool)
    (d : Deck) (c0 : Card) (hfound : d.cards.find? (fun c => c.id == cid) = some c0) :
    (markResult false now iso cid b d).1 = (markResult true now iso cid b d).1 ∧
    (markResult false now iso cid b d).2 = some StorageErr.quotaExceeded ∧
    (markResult true now iso cid b d).2 = none ∧
    (persist false iso d).1 = (persist true iso d).1 := by
  simp [markResult, persist, hfound]

/-- Claim C1 witness: the amended theorem applied at the concrete
one-card deck. -/
theorem C1_witness :
    exDeck.cards.find? (fun c => c.id == "c1") = some exCard ∧
    ((markResult false 5 "t" "c1" true exDeck).1 = (markResult true 5 "t" "c1" true exDeck).1 ∧
     (markResult false 5 "t" "c1" true exDeck).2 = some StorageErr.quotaExceeded ∧
     (markResult true 5 "t" "c1" true exDeck).2 = none ∧
     (persist false "t" exDeck).1 = (persist true "t" exDeck).1) :=
  ⟨by decide, C1_write_failure_propagates 5 "t" "c1" true exDeck exCard (by decide)⟩

/-! ## Claim about fresh cards being due -/

/-- The identity permutation, standing in for a shuffle that is never
invoked (`opts.shuffle` off). -/
def idShuffle : List Card → List Card := fun l => l

/-- A deck holding one freshly hydrated, never-graded card. -/
def exDeck2 : Deck := { cards := [hydrateFull "u1" { front := "f" }] }

/-- Claim C10: a freshly hydrated card that has never been graded has
`sr.nextDue = 0`, and is therefore always included by a `dueOnly`
filter, for every current time `now ≥ 0` — subject to no other criteria
excluding it, which here means the stored view mode is not the grid
mode with its unrelated 9-card cap. -/
theorem C10_fresh_card_due (f : String) (r : RawCard) (hsr : r.sr = none) :
    (hydrateFull f r).sr.nextDue = 0 ∧
    ∀ (d : Deck) (vm : String) (shuffleFn : List Card → List Card) (now : Nat),
      vm ≠ "grid" → hydrateFull f r ∈ d.cards →
      hydrateFull f r ∈ filterDeck vm shuffleFn now { dueOnly := true } d := by
  have hsr2 : (hydrateFull f r).sr = initSR := by
    simp [hydrateFull, hydrateCard, hsr]
  constructor
  · rw [hsr2]
    rfl
  · intro d vm shuffleFn now hvm hmem
    have hvmb : (vm == "grid") = false := beq_eq_false_iff_ne.mpr hvm
    simp only [filterDeck, hvmb]
    simp [List.mem_filter, hmem, hsr2, jsOrNat, initSR,
      show jsToLower "" = "" from rfl]

/-- Claim C10 witness: the theorem applied to a concrete raw card with
no `sr`, inside a concrete deck, in the default single view mode at
time 0. -/
theorem C10_witness :
    ({ front := "f" } : RawCard).sr = none ∧
    (hydrateFull "u1" { front := "f" }).sr.nextDue = 0 ∧
    hydrateFull "u1" { front := "f" } ∈
      filterDeck "single" idShuffle 0 { dueOnly := true } exDeck2 :=
  ⟨rfl,
   (C10_fresh_card_due "u1" { front := "f" } rfl).1,
   (C10_fresh_card_due "u1" { front := "f" } rfl).2 exDeck2 "single" idShuffle 0
     (by decide) (by decide)⟩

/-! ## Claim about the filter pipeline -/

theorem jsOrNat_zero (a : Nat) : jsOrNat a 0 = a := by
  unfold jsOrNat
  rcases h : (a == 0) with _ | _ <;> simp_all

theorem limit_take (n : Nat) (l : List Card) :
    (if n ≠ 0 ∧ n < l.length then l.take n else l) =
      (if n ≠ 0 then l.take n else l) := by
  by_cases h0 : n = 0
  · subst h0
    simp
  · rw [if_pos h0]
    by_cases hl : n < l.length
    · rw [if_pos ⟨h0, hl⟩]
    · rw [if_neg (by tauto)]
      exact (List.take_of_length_le (by omega)).symm

/-- A ten-card deck; in grid view mode `filterDeck` truncates its output
to 9 even with no filter criteria set. -/
def exDeck10 : Deck :=
  { cards := [
      { id := "d0", type := "flashcard" }, { id := "d1", type := "flashcard" },
      { id := "d2", type := "flashcard" }, { id := "d3", type := "flashcard" },
      { id := "d4", type := "flashcard" }, { id := "d5", type := "flashcard" },
      { id := "d6", type := "flashcard" }, { id := "d7", type := "flashcard" },
      { id := "d8", type := "flashcard" }, { id := "d9", type := "flashcard" } ] }

/-- Claim C5 counterexample: with the stored view mode `grid` and a
ten-card deck, `filterDeck` with empty criteria returns 9 cards while
the spec's pipeline (ids → type → topic → search → wrongOnly → dueOnly
→ shuffle → limit, "no further transformation") returns all 10 — the
code applies an additional grid-view truncation after `limit`. -/
theorem C5_counterexample :
    filterDeck "grid" idShuffle 0 {} exDeck10 ≠ filterDeckSpec idShuffle 0 {} exDeck10 ∧
    (filterDeck "grid" idShuffle 0 {} exDeck10).length = 9 ∧
    (filterDeckSpec idShuffle 0 {} exDeck10).length = 10 := by
  refine ⟨?_, by decide, by decide⟩
  decide

/-- Claim C5 (amended): `filterDeck` equals the spec's fixed pipeline
ids → type → topic → search → wrongOnly → dueOnly → shuffle → limit,
followed by one additional transformation: when the stored view mode is
`grid`, the result is truncated to its first 9 elements. -/
theorem C5_filter_pipeline (vm : String) (shuffleFn : List Card → List Card)
    (now : Nat) (opts : FilterOpts) (d : Deck) :
    filterDeck vm shuffleFn now opts d =
      gridTruncate vm (filterDeckSpec shuffleFn now opts d) := by
  unfold filterDeck filterDeckSpec gridTruncate
  simp only [jsOrNat_zero, limit_take]

/-! ## Claim about the import merge -/

theorem findId_eq_none_iff (m : List Card) (j : String) :
    findId m j = none ↔ ∀ x ∈ m, x.id ≠ j := by
  unfold findId
  rw [List.find?_eq_none]
  simp

theorem any_id_eq_false (m : List Card) (j : String) (h : ∀ x ∈ m, x.id ≠ j) :
    m.any (fun c => c.id == j) = false := by
  rw [List.any_eq_false]
  intro x hx
  simp [h x hx]

theorem findId_replace (m : List Card) (nc : Card)
    (hany : m.any (fun c => c.id == nc.id) = true) :
    findId (m.map (fun c => if c.id == nc.id then nc else c)) nc.id = some nc := by
  induction m with
  | nil => simp at hany
  | cons a t ih =>
      rcases ha : (a.id == nc.id) with _ | _
      · have hany' : t.any (fun c => c.id == nc.id) = true := by
          simp only [List.any_cons, ha, Bool.false_or] at hany
          exact hany
        simp only [List.map_cons, if_neg (by simp [ha] : ¬ (a.id == nc.id) = true)]
        unfold findId
        rw [List.find?_cons_of_neg]
        · exact ih hany'
        · simp [ha]
      · simp only [List.map_cons, if_pos ha]
        unfold findId
        rw [List.find?_cons_of_pos]
        simp

theorem findId_cons (a : Card) (t : List Card) (j : String) :
    findId (a :: t) j = if a.id == j then some a else findId t j := by
  unfold findId
  rcases h : (a.id == j) with _ | _ <;> simp [List.find?_cons, h]

theorem findId_replace_ne (m : List Card) (nc : Card) (j : String) (hj : nc.id ≠ j) :
    findId (m.map (fun c => if c.id == nc.id then nc else c)) j = findId m j := by
  induction m with
  | nil => rfl
  | cons a t ih =>
      simp only [List.map_cons]
      rcases ha : (a.id == nc.id) with _ | _
      · rw [show (if (false = true) then nc else a) = a from by simp]
        rw [findId_cons, findId_cons, ih]
      · rw [if_pos rfl, findId_cons, findId_cons]
        have h1 : (nc.id == j) = false := beq_eq_false_iff_ne.mpr hj
        have h2 : (a.id == j) = false := by
          rw [beq_eq_false_iff_ne]
          have haid : a.id = nc.id := by simpa using ha
          rw [haid]
          exact hj
        rw [if_neg (by simp [h1]), if_neg (by simp [h2])]
        exact ih

theorem findId_append_elem (m : List Card) (nc : Card)
    (hnone : findId m nc.id = none) :
    findId (m ++ [nc]) nc.id = some nc := by
  unfold findId at *
  rw [List.find?_append, hnone]
  simp [List.find?]

theorem findId_append_ne (m : List Card) (nc : Card) (j : String) (hj : nc.id ≠ j) :
    findId (m ++ [nc]) j = findId m j := by
  unfold findId
  rw [List.find?_append]
  have h1 : (nc.id == j) = false := beq_eq_false_iff_ne.mpr hj
  rcases h : m.find? (fun c => c.id == j) with _ | c
  · simp [List.find?_cons, h1]
  · rw [h]
    simp

theorem findId_mapPut (m : List Card) (nc : Card) (j : String) :
    findId (mapPut m nc) j = if nc.id = j then some nc else findId m j := by
  unfold mapPut
  by_cases hany : m.any (fun c => c.id == nc.id) = true
  · rw [if_pos hany]
    by_cases hj : nc.id = j
    · subst hj
      rw [if_pos rfl]
      exact findId_replace m nc hany
    · rw [if_neg hj]
      exact findId_replace_ne m nc j hj
  · rw [if_neg hany]
    have hany' : m.any (fun c => c.id == nc.id) = false := by
      rcases h : m.any (fun c => c.id == nc.id) with _ | _
      · rfl
      · exact absurd h hany
    by_cases hj : nc.id = j
    · subst hj
      rw [if_pos rfl]
      apply findId_append_elem
      rw [findId_eq_none_iff]
      rw [List.any_eq_false] at hany'
      intro x hx
      simpa using hany' x hx
    · rw [if_neg hj]
      exact findId_append_ne m nc j hj

theorem upsertMerge_id (old : Option Card) (nc : Card) :
    (upsertMerge old nc).id = nc.id := by
  cases old <;> rfl

theorem findId_upsertStep (m : List Card) (h : Card) (j : String) :
    findId (upsertStep m h) j =
      if h.id = j then some (upsertMerge (findId m h.id) h) else findId m j := by
  unfold upsertStep
  rw [findId_mapPut]
  simp only [upsertMerge_id]

theorem findId_fold_untouched (hs : List Card) (j : String)
    (hj : ∀ h ∈ hs, h.id ≠ j) :
    ∀ m : List Card, findId (hs.foldl upsertStep m) j = findId m j := by
  induction hs with
  | nil => intro m; rfl
  | cons a t ih =>
      intro m
      simp only [List.foldl_cons]
      rw [ih (fun h hh => hj h (List.mem_cons_of_mem a hh))]
      rw [findId_upsertStep, if_neg (hj a (List.mem_cons_self a t))]

theorem findId_fold_batch (hs : List Card) (hnd : (hs.map Card.id).Nodup) :
    ∀ h ∈ hs, ∀ m : List Card,
      findId (hs.foldl upsertStep m) h.id = some (upsertMerge (findId m h.id) h) := by
  induction hs with
  | nil => intro h hh; cases hh
  | cons a t ih =>
      intro h hh m
      simp only [List.map_cons, List.nodup_cons] at hnd
      simp only [List.foldl_cons]
      rcases List.mem_cons.mp hh with rfl | hmem
      · rw [findId_fold_untouched t h.id ?_ (upsertStep m h)]
        · rw [findId_upsertStep, if_pos rfl]
        · intro x hx hxid
          exact hnd.1 (hxid ▸ List.mem_map_of_mem Card.id hx)
      · have hne : a.id ≠ h.id := by
          intro he
          exact hnd.1 (he ▸ List.mem_map_of_mem Card.id hmem)
        rw [ih hnd.2 h hmem (upsertStep m a)]
        rw [findId_upsertStep, if_neg hne]

theorem foldl_mapPut_disjoint (cs : List Card) :
    ∀ acc : List Card, (cs.map Card.id).Nodup →
      (∀ c ∈ cs, findId acc c.id = none) →
      cs.foldl mapPut acc = acc ++ cs := by
  induction cs with
  | nil => intro acc _ _; simp
  | cons a t ih =>
      intro acc hnd hnone
      simp only [List.map_cons, List.nodup_cons] at hnd
      have hany : acc.any (fun c => c.id == a.id) = false := by
        apply any_id_eq_false
        exact (findId_eq_none_iff acc a.id).mp (hnone a (List.mem_cons_self a t))
      have hput : mapPut acc a = acc ++ [a] := by
        unfold mapPut
        rw [if_neg (by simp [hany])]
      rw [List.foldl_cons, hput, ih (acc ++ [a]) hnd.2 ?_]
      · simp
      · intro c hc
        rw [findId_eq_none_iff]
        intro x hx
        rcases List.mem_append.mp hx with h1 | h1
        · exact (findId_eq_none_iff acc c.id).mp
            (hnone c (List.mem_cons_of_mem a hc)) x h1
        · have hxa : x = a := by simpa using h1
          subst hxa
          intro he
          exact hnd.1 (he ▸ List.mem_map_of_mem Card.id hc)

theorem findId_self (cards : List Card) (hnd : (cards.map Card.id).Nodup) :
    ∀ c ∈ cards, findId cards c.id = some c := by
  induction cards with
  | nil => intro c hc; cases hc
  | cons a t ih =>
      intro c hc
      simp only [List.map_cons, List.nodup_cons] at hnd
      rcases List.mem_cons.mp hc with rfl | hmem
      · unfold findId
        rw [List.find?_cons_of_pos]
        simp
      · have hne : (a.id == c.id) = false := by
          rw [beq_eq_false_iff_ne]
          intro he
          exact hnd.1 (he ▸ List.mem_map_of_mem Card.id hmem)
        unfold findId
        rw [List.find?_cons_of_neg _ (by simp [hne])]
        exact ih hnd.2 c hmem

theorem findId_not_mem (cards : List Card) (j : String)
    (hj : j ∉ cards.map Card.id) : findId cards j = none := by
  rw [findId_eq_none_iff]
  intro x hx he
  exact hj (he ▸ List.mem_map_of_mem Card.id hx)

theorem findId_mem (m : List Card) (j : String) (c : Card)
    (h : findId m j = some c) : c ∈ m ∧ c.id = j := by
  refine ⟨List.mem_of_find?_eq_some h, ?_⟩
  have h2 := List.find?_some h
  simpa using h2

/-- A fixed id supply for the concrete upsert examples. -/
def exUid : Nat → String := fun _ => "u0"

/-- A deck card with accumulated learning progress. -/
def exCardA : Card :=
  { id := "a", type := "flashcard", front := "oldA",
    stats := { seen := 5, correct := 2, streak := 1, lastSeen := none } }

/-- A one-card deck with progress, used by the upsert examples. -/
def exDeckA : Deck := { cards := [exCardA] }

/-- An incoming batch holding a single card with a new id that carries
its own non-zero `stats` (e.g. from a JSON import of a previously
exported deck). -/
def exBatchNew : List RawCard :=
  [{ id := "b", type := "flashcard",
     stats := some { seen := 5, correct := 3, streak := 1, lastSeen := none } }]

/-- An incoming batch that updates card "a" (new front) and adds a fresh
card "b" with no stats of its own. -/
def exBatch : List RawCard :=
  [{ id := "a", type := "flashcard", front := "newA" },
   { id := "b", type := "flashcard", front := "newB" }]

/-- Claim C6 counterexample: merging does NOT always keep "fresh zero
stats/sr for new ids" — an incoming card with a new id that itself
carries stats keeps those stats: upserting a batch whose new card "b"
arrives with `stats.seen = 5` yields a deck card "b" with `seen = 5`,
not the fresh zero record. -/
theorem C6_counterexample :
    (findId (upsertCards exUid true "t" exBatchNew exDeckA).1.cards "b").map Card.stats =
      some { seen := 5, correct := 3, streak := 1, lastSeen := none } ∧
    ({ seen := 5, correct := 3, streak := 1, lastSeen := none } : Stats) ≠ initStats := by
  constructor
  · decide
  · decide

/-- Claim C6 (amended): for every deck (with its unique-id invariant) and
every batch of incoming cards with pairwise-distinct hydrated ids,
`upsertCards` (i) keeps, for every pre-existing card, a card with the
same id and the same `stats`/`sr` — the merge never removes a card and
never loses progress; (ii) keeps every pre-existing card not mentioned
in the batch verbatim; (iii) keeps each new-id incoming card as
hydrated, so its stats/sr are the fresh zero records exactly when the
incoming card carried none (iv); and (v) for each incoming card whose id
already exists, stores the incoming content with the existing card's
`stats`/`sr` carried forward. -/
theorem C6_upsert_preserves (uid : Nat → String) (writeOk : Bool) (iso : String)
    (newCards : List RawCard) (d : Deck)
    (hd : (d.cards.map Card.id).Nodup)
    (hb : ((hydrateBatch uid newCards).map Card.id).Nodup) :
    (∀ c ∈ d.cards, ∃ c' ∈ (upsertCards uid writeOk iso newCards d).1.cards,
        c'.id = c.id ∧ c'.stats = c.stats ∧ c'.sr = c.sr) ∧
    (∀ c ∈ d.cards, c.id ∉ (hydrateBatch uid newCards).map Card.id →
        c ∈ (upsertCards uid writeOk iso newCards d).1.cards) ∧
    (∀ h ∈ hydrateBatch uid newCards, h.id ∉ d.cards.map Card.id →
        h ∈ (upsertCards uid writeOk iso newCards d).1.cards) ∧
    (∀ f r, r.stats = none → r.sr = none →
        (hydrateFull f r).stats = initStats ∧ (hydrateFull f r).sr = initSR) ∧
    (∀ h ∈ hydrateBatch uid newCards, ∀ old ∈ d.cards, old.id = h.id →
        { h with stats := old.stats, sr := old.sr } ∈
          (upsertCards uid writeOk iso newCards d).1.cards) := by
  have hcards : (upsertCards uid writeOk iso newCards d).1.cards
      = (hydrateBatch uid newCards).foldl upsertStep d.cards := by
    unfold upsertCards persist
    dsimp only
    rw [foldl_mapPut_disjoint d.cards [] hd (fun c _ => rfl)]
    rw [List.nil_append]
  refine ⟨?_, ?_, ?_, ?_, ?_⟩
  · intro c hc
    rw [hcards]
    by_cases hin : c.id ∈ (hydrateBatch uid newCards).map Card.id
    · obtain ⟨h, hh, hid⟩ := List.mem_map.mp hin
      have hfin := findId_fold_batch (hydrateBatch uid newCards) hb h hh d.cards
      rw [hid, findId_self d.cards hd c hc] at hfin
      refine ⟨{ h with stats := c.stats, sr := c.sr }, ?_, ?_, rfl, rfl⟩
      · exact (findId_mem _ _ _ hfin).1
      · exact hid
    · have huntouched := findId_fold_untouched (hydrateBatch uid newCards) c.id
        (fun x hx he => hin (he ▸ List.mem_map_of_mem Card.id hx)) d.cards
      rw [findId_self d.cards hd c hc] at huntouched
      exact ⟨c, (findId_mem _ _ _ huntouched).1, rfl, rfl, rfl⟩
  · intro c hc hin
    rw [hcards]
    have huntouched := findId_fold_untouched (hydrateBatch uid newCards) c.id
      (fun x hx he => hin (he ▸ List.mem_map_of_mem Card.id hx)) d.cards
    rw [findId_self d.cards hd c hc] at huntouched
    exact (findId_mem _ _ _ huntouched).1
  · intro h hh hnot
    rw [hcards]
    have hfin := findId_fold_batch (hydrateBatch uid newCards) hb h hh d.cards
    rw [findId_not_mem d.cards h.id hnot] at hfin
    exact (findId_mem _ _ _ hfin).1
  · intro f r hstats hsr
    constructor <;> simp [hydrateFull, hydrateCard, hstats, hsr]
  · intro h hh old hold holdid
    rw [hcards]
    have hfin := findId_fold_batch (hydrateBatch uid newCards) hb h hh d.cards
    rw [← holdid, findId_self d.cards hd old hold] at hfin
    exact (findId_mem _ _ _ hfin).1

/-- Claim C6 witness: the amended merge theorem applied at a concrete
deck (one card "a" with `seen = 5`) and a concrete batch updating "a"
with a new front and adding a stats-free new card "b". -/
theorem C6_witness :
    (exDeckA.cards.map Card.id).Nodup ∧
    ((hydrateBatch exUid exBatch).map Card.id).Nodup ∧
    ((∀ c ∈ exDeckA.cards, ∃ c' ∈ (upsertCards exUid true "t" exBatch exDeckA).1.cards,
        c'.id = c.id ∧ c'.stats = c.stats ∧ c'.sr = c.sr) ∧
     (∀ c ∈ exDeckA.cards, c.id ∉ (hydrateBatch exUid exBatch).map Card.id →
        c ∈ (upsertCards exUid true "t" exBatch exDeckA).1.cards) ∧
     (∀ h ∈ hydrateBatch exUid exBatch, h.id ∉ exDeckA.cards.map Card.id →
        h ∈ (upsertCards exUid true "t" exBatch exDeckA).1.cards) ∧
     (∀ f r, r.stats = none → r.sr = none →
        (hydrateFull f r).stats = initStats ∧ (hydrateFull f r).sr = initSR) ∧
     (∀ h ∈ hydrateBatch exUid exBatch, ∀ old ∈ exDeckA.cards, old.id = h.id →
        { h with stats := old.stats, sr := old.sr } ∈
          (upsertCards exUid true "t" exBatch exDeckA).1.cards)) :=
  ⟨by decide, by decide,
   C6_upsert_preserves exUid true "t" exBatch exDeckA (by decide) (by decide)⟩

end CardCue
